import Mathlib

/-!
# Seven segment display driver (P003_SevenSegment, `main.c`)

A shallow embedding of the display driver of `main.c` (ATMEGA328P, PORTD driving a
CA3161 BCD-to-seven-segment decoder) and of the body of its main loop.

Modelling conventions.

* `BYTE` and `BOOL` are `unsigned char`: a natural number below `256`.  The functions
  below take natural numbers; theorems carry the bound as a hypothesis where it matters.
* The port is one 8-bit image: reading `PIND` returns the value last written to `PORTD`.
  A function of the source that reads `PIND` and writes `PORTD` becomes a function from
  the port image before the call to the port image after it.
* An assignment to `PORTD` stores the low eight bits of the value: `% 256`.
* The operands of `&`, `|`, `<<` and `~` are promoted to the 16-bit `int` of the target.
  Every value that occurs is non-negative and below `2 ^ 15`, except the result of `~`,
  whose bit pattern is `0xFFFF ^^^ x`; it is only used as an operand of `&` with a value
  below `256`, so the pattern determines the result.
-/

namespace SevenSegment

/-! ## Constants (`#define`s of `main.c`) -/

def MINUS : Nat := 0b1010
def E_CHAR : Nat := 0b1011
def H_CHAR : Nat := 0b1100
def L_CHAR : Nat := 0b1101
def P_CHAR : Nat := 0b1110
def CLEAR : Nat := 0b1111

/-! ## Display driver -/

/-- The function `DisplayNumber(BYTE number, BOOL showPoint)`: the first argument is the port
image before the call, the result is the port image after it. -/
def DisplayNumber (PIND number showPoint : Nat) : Nat :=
  if number < 10 then
    -- PORTD = (PIND & 0xE1) | (number << 1);
    let PIND := ((PIND &&& 0xE1) ||| (number <<< 1)) % 256
    if showPoint = 0 then
      -- PORTD = (PIND & 0xDF) & ~(showPoint << 5);
      ((PIND &&& 0xDF) &&& (0xFFFF ^^^ (showPoint <<< 5))) % 256
    else
      -- PORTD = (PIND & 0xDF) | (showPoint << 5);
      ((PIND &&& 0xDF) ||| (showPoint <<< 5)) % 256
  else
    PIND

/-- The function `DisplaySpecialCharacter(BYTE specialCharacter, BOOL showPoint)`, as a map
from the port image before the call to the port image after it. -/
def DisplaySpecialCharacter (PIND specialCharacter showPoint : Nat) : Nat :=
  if 10 ≤ specialCharacter ∧ specialCharacter < 15 then
    -- PORTD = (PIND & 0xE1) | (specialCharacter << 1);
    let PIND := ((PIND &&& 0xE1) ||| (specialCharacter <<< 1)) % 256
    if showPoint = 0 then
      -- PORTD = (PIND & 0xDF) & ~(showPoint << 5);
      ((PIND &&& 0xDF) &&& (0xFFFF ^^^ (showPoint <<< 5))) % 256
    else
      -- PORTD = (PIND & 0xDF) | (showPoint << 5);
      ((PIND &&& 0xDF) ||| (showPoint <<< 5)) % 256
  else
    PIND

/-- The function `ClearDisplay()`: `PORTD = (PIND & 0xD1) | (0x1F << 1);`. -/
def ClearDisplay (PIND : Nat) : Nat :=
  ((PIND &&& 0xD1) ||| (0x1F <<< 1)) % 256

/-- The function `Setup()`: the value it stores in the direction register `DDRD`. -/
def Setup : Nat := 0b00111110

/-! ## Main loop -/

/-- The driver call an iteration of the main loop makes first. -/
inductive Call where
  | DisplayNumber (number showPoint : Nat)
  | DisplaySpecialCharacter (specialCharacter showPoint : Nat)
  deriving DecidableEq, Repr

/-- Effect of a dispatched call on the port image. -/
def Call.run (PIND : Nat) : Call → Nat
  | Call.DisplayNumber number showPoint => SevenSegment.DisplayNumber PIND number showPoint
  | Call.DisplaySpecialCharacter c showPoint =>
      SevenSegment.DisplaySpecialCharacter PIND c showPoint

/-- The symbol code a dispatched call carries. -/
def Call.code : Call → Nat
  | Call.DisplayNumber number _ => number
  | Call.DisplaySpecialCharacter c _ => c

/-- The point flag a dispatched call carries. -/
def Call.point : Call → Nat
  | Call.DisplayNumber _ showPoint => showPoint
  | Call.DisplaySpecialCharacter _ showPoint => showPoint

/-- Variables of `main` that live across iterations, together with the port image. -/
structure LoopState where
  bcdCode : Nat
  showPoint : Nat
  port : Nat
  deriving DecidableEq, Repr

/-- State of `main` when the loop is entered: `bcdCode = 0`, `showPoint = 1`. -/
def initial (port : Nat) : LoopState :=
  { bcdCode := 0, showPoint := 1, port := port }

/-- The `if (bcdCode < 10) ... else ...` at the head of the loop body: which call is made,
with the value of `bcdCode` before its post-increment. -/
def dispatch (s : LoopState) : Call :=
  if s.bcdCode < 10 then
    Call.DisplayNumber s.bcdCode s.showPoint
  else
    Call.DisplaySpecialCharacter s.bcdCode s.showPoint

/-- One pass through the body of `while(1)` in `main`, up to the delay. -/
def mainBody (s : LoopState) : LoopState :=
  let port := (dispatch s).run s.port
  -- bcdCode++ on an unsigned char
  let bcdCode := (s.bcdCode + 1) % 256
  if bcdCode = 15 then
    -- bcdCode = 0; showPoint ^= 1; ClearDisplay();
    { bcdCode := 0, showPoint := (s.showPoint ^^^ 1) % 256, port := ClearDisplay port }
  else
    { bcdCode := bcdCode, showPoint := s.showPoint, port := port }

/-- State after `n` passes through the loop body. -/
def iterations : Nat → LoopState → LoopState
  | 0, s => s
  | n + 1, s => iterations n (mainBody s)

/-- The calls dispatched by `n` consecutive passes through the loop body, in order. -/
def dispatched : Nat → LoopState → List Call
  | 0, _ => []
  | n + 1, s => dispatch s :: dispatched n (mainBody s)

/-! ## Specification-side description of a symbol write -/

/-- The effect the specification gives to `ShowDigit` and `ShowSpecial` on an accepted code:
bits 0, 6 and 7 of the port image are kept, the symbol field (bits 1-4) becomes `code` and
the point bit (bit 5) becomes `flag`. -/
def specShow (p code flag : Nat) : Nat :=
  (p &&& 0xC1) ||| (code <<< 1) ||| (flag <<< 5)

/-- The 4-bit symbol field of a port image: bits 1-4. -/
def symbolField (port : Nat) : Nat :=
  (port >>> 1) &&& 0xF

/-- The point bit of a port image: bit 5. -/
def pointBit (port : Nat) : Bool :=
  port.testBit 5

/-- The guard of the function a call goes to: `number < 10` for `DisplayNumber`,
`specialCharacter >= 10 && specialCharacter < 15` for `DisplaySpecialCharacter`. When it
fails the function writes nothing. -/
def Call.accepted : Call → Prop
  | Call.DisplayNumber number _ => number < 10
  | Call.DisplaySpecialCharacter c _ => 10 ≤ c ∧ c < 15

instance (call : Call) : Decidable call.accepted := by
  cases call <;> unfold Call.accepted <;> infer_instance

/-- Pin `i` of the port is configured as an output by `Setup`: bit `i` of `DDRD` is set. -/
def isOutput (i : Nat) : Bool :=
  Setup.testBit i

/-! ## Auxiliary facts -/

set_option maxRecDepth 100000

theorem or_mod_256 (a b : Nat) : (a ||| b) % 256 = a % 256 ||| b % 256 := by
  have h : (256 : Nat) = 2 ^ 8 := by norm_num
  rw [h]
  apply Nat.eq_of_testBit_eq
  intro i
  simp only [Nat.testBit_mod_two_pow, Nat.testBit_or]
  cases decide (i < 8) <;> simp

theorem testBit_of_lt_256 (x i : Nat) (hx : x < 256) (hi : 8 ≤ i) : x.testBit i = false := by
  apply Nat.testBit_lt_two_pow
  calc x < 2 ^ 8 := by simpa using hx
    _ ≤ 2 ^ i := Nat.pow_le_pow_right (by decide) hi

theorem DisplayNumber_lt (p n sp : Nat) (hp : p < 256) : DisplayNumber p n sp < 256 := by
  unfold DisplayNumber
  split
  · dsimp only
    split <;> exact Nat.mod_lt _ (by decide)
  · exact hp

theorem DisplaySpecialCharacter_lt (p c sp : Nat) (hp : p < 256) :
    DisplaySpecialCharacter p c sp < 256 := by
  unfold DisplaySpecialCharacter
  split
  · dsimp only
    split <;> exact Nat.mod_lt _ (by decide)
  · exact hp

theorem ClearDisplay_lt (p : Nat) : ClearDisplay p < 256 :=
  Nat.mod_lt _ (by decide)

/-- Bits outside a mask whose complement lies in bits 1-5: two bytes that agree under the
mask `0xC1` agree on every bit except bits 1-5. -/
theorem testBit_eq_of_and_C1 (r p i : Nat) (hr : r < 256) (hp : p < 256)
    (h : r &&& 0xC1 = p &&& 0xC1) (hi : i = 0 ∨ 5 < i) : r.testBit i = p.testBit i := by
  by_cases h8 : 8 ≤ i
  · rw [testBit_of_lt_256 r i hr h8, testBit_of_lt_256 p i hp h8]
  · have hb : (r &&& 0xC1).testBit i = (p &&& 0xC1).testBit i := by rw [h]
    rw [Nat.testBit_and, Nat.testBit_and] at hb
    have hm : Nat.testBit 0xC1 i = true := by
      have : i = 0 ∨ i = 6 ∨ i = 7 := by omega
      rcases this with rfl | rfl | rfl <;> decide
    simpa [hm] using hb

/-- The first write of both display functions followed by the mask of the second write. -/
theorem symbol_write (p code : Nat) (hp : p < 256) (hc : code < 15) :
    ((p &&& 0xE1 ||| code <<< 1) % 256) &&& 0xDF = (p &&& 0xC1) ||| (code <<< 1) := by
  have h : ∀ p < 256, ∀ code < 15,
      ((p &&& 0xE1 ||| code <<< 1) % 256) &&& 0xDF = (p &&& 0xC1) ||| (code <<< 1) := by
    decide
  exact h p hp code hc

theorem symbol_write_lt (p code : Nat) (hp : p < 256) (hc : code < 15) :
    (p &&& 0xC1) ||| (code <<< 1) < 256 := by
  have h : ∀ p < 256, ∀ code < 15, (p &&& 0xC1) ||| (code <<< 1) < 256 := by decide
  exact h p hp code hc

/-- Closed form of `DisplayNumber` on an accepted number, for every value of `showPoint`. -/
theorem DisplayNumber_eq (p n sp : Nat) (hp : p < 256) (hn : n < 10) :
    DisplayNumber p n sp = (p &&& 0xC1) ||| (n <<< 1) ||| ((sp <<< 5) % 256) := by
  have hw := symbol_write p n hp (by omega)
  have hl := symbol_write_lt p n hp (by omega)
  unfold DisplayNumber
  rw [if_pos hn]
  dsimp only
  by_cases h0 : sp = 0
  · subst h0
    rw [if_pos rfl, hw]
    have h1 : (0xFFFF ^^^ (0 <<< 5)) = 0xFFFF := by decide
    rw [h1]
    have h2 : ∀ x < 256, (x &&& 0xFFFF) % 256 = x ||| ((0 <<< 5) % 256) := by decide
    exact h2 _ hl
  · rw [if_neg h0, hw, or_mod_256, Nat.mod_eq_of_lt hl]

/-- Closed form of `DisplaySpecialCharacter` on an accepted code, for every `showPoint`. -/
theorem DisplaySpecialCharacter_eq (p c sp : Nat) (hp : p < 256) (hc : 10 ≤ c ∧ c < 15) :
    DisplaySpecialCharacter p c sp = (p &&& 0xC1) ||| (c <<< 1) ||| ((sp <<< 5) % 256) := by
  have hw := symbol_write p c hp hc.2
  have hl := symbol_write_lt p c hp hc.2
  unfold DisplaySpecialCharacter
  rw [if_pos hc]
  dsimp only
  by_cases h0 : sp = 0
  · subst h0
    rw [if_pos rfl, hw]
    have h1 : (0xFFFF ^^^ (0 <<< 5)) = 0xFFFF := by decide
    rw [h1]
    have h2 : ∀ x < 256, (x &&& 0xFFFF) % 256 = x ||| ((0 <<< 5) % 256) := by decide
    exact h2 _ hl
  · rw [if_neg h0, hw, or_mod_256, Nat.mod_eq_of_lt hl]

/-! ## The display driver on accepted symbols -/

/-- C1: for every 8-bit port image `p`, every number `n` in 0..9 and every point flag in
{0,1}, `DisplayNumber` leaves bits 0, 6 and 7 of the port as they were: the result and `p`
agree under the mask `0xC1`, and every bit other than bits 1-5 (the symbol field and the
point bit) has the value it had in `p`. -/
theorem DisplayNumber_frame (p n f : Nat) (hp : p < 256) (hn : n < 10) (hf : f < 2) :
    DisplayNumber p n f &&& 0xC1 = p &&& 0xC1 ∧
    ∀ i, (i = 0 ∨ 5 < i) → (DisplayNumber p n f).testBit i = p.testBit i := by
  have h : ∀ p < 256, ∀ n < 10, ∀ f < 2, DisplayNumber p n f &&& 0xC1 = p &&& 0xC1 := by
    decide
  have hm := h p hp n hn f hf
  exact ⟨hm, fun i hi =>
    testBit_eq_of_and_C1 _ p i (DisplayNumber_lt p n f hp) hp hm hi⟩

theorem DisplayNumber_frame_witness :
    DisplayNumber 0xFF 7 1 &&& 0xC1 = 0xFF &&& 0xC1 ∧
    ∀ i, (i = 0 ∨ 5 < i) → (DisplayNumber 0xFF 7 1).testBit i = Nat.testBit 0xFF i :=
  DisplayNumber_frame 0xFF 7 1 (by decide) (by decide) (by decide)

/-- C2: for every 8-bit port image `p`, every number `n` in 0..9 and every point flag in
{0,1}, the symbol field (bits 1-4) of the port after `DisplayNumber`, second write included,
is `n`. -/
theorem DisplayNumber_symbolField (p n f : Nat) (hp : p < 256) (hn : n < 10) (hf : f < 2) :
    (DisplayNumber p n f >>> 1) &&& 0xF = n ∧ symbolField (DisplayNumber p n f) = n := by
  have h : ∀ p < 256, ∀ n < 10, ∀ f < 2, (DisplayNumber p n f >>> 1) &&& 0xF = n := by
    decide
  exact ⟨h p hp n hn f hf, h p hp n hn f hf⟩

theorem DisplayNumber_symbolField_witness :
    (DisplayNumber 0xFF 3 0 >>> 1) &&& 0xF = 3 ∧ symbolField (DisplayNumber 0xFF 3 0) = 3 :=
  DisplayNumber_symbolField 0xFF 3 0 (by decide) (by decide) (by decide)

/-- C3: point polarity contract. For every 8-bit port image `p`, every number `n` in 0..9
and every special code `c` in 10..14, `DisplayNumber` and `DisplaySpecialCharacter` leave
bit 5 of the port cleared when called with point flag 0 and set when called with point
flag 1, whatever bit 5 of `p` was. -/
theorem point_polarity (p n c : Nat) (hp : p < 256) (hn : n < 10) (hc : 10 ≤ c ∧ c < 15) :
    (DisplayNumber p n 0).testBit 5 = false ∧
    (DisplayNumber p n 1).testBit 5 = true ∧
    (DisplaySpecialCharacter p c 0).testBit 5 = false ∧
    (DisplaySpecialCharacter p c 1).testBit 5 = true := by
  have h : ∀ p < 256, ∀ n < 15,
      ((p &&& 0xC1) ||| (n <<< 1) ||| ((0 <<< 5) % 256)).testBit 5 = false ∧
      ((p &&& 0xC1) ||| (n <<< 1) ||| ((1 <<< 5) % 256)).testBit 5 = true := by
    decide
  rw [DisplayNumber_eq p n 0 hp hn, DisplayNumber_eq p n 1 hp hn,
    DisplaySpecialCharacter_eq p c 0 hp hc, DisplaySpecialCharacter_eq p c 1 hp hc]
  exact ⟨(h p hp n (by omega)).1, (h p hp n (by omega)).2,
    (h p hp c hc.2).1, (h p hp c hc.2).2⟩

theorem point_polarity_witness :
    (DisplayNumber 0x20 4 0).testBit 5 = false ∧
    (DisplayNumber 0x00 4 1).testBit 5 = true ∧
    (DisplaySpecialCharacter 0x20 12 0).testBit 5 = false ∧
    (DisplaySpecialCharacter 0x00 12 1).testBit 5 = true :=
  ⟨(point_polarity 0x20 4 12 (by decide) (by decide) (by decide)).1,
   (point_polarity 0x00 4 12 (by decide) (by decide) (by decide)).2.1,
   (point_polarity 0x20 4 12 (by decide) (by decide) (by decide)).2.2.1,
   (point_polarity 0x00 4 12 (by decide) (by decide) (by decide)).2.2.2⟩

/-- C4: for every 8-bit port image `p`, every code `c` in 10..14 and every point flag in
{0,1}, `DisplaySpecialCharacter` returns `(p AND 0xC1) OR (c << 1) OR (flag << 5)`, the
effect `DisplayNumber` has for every number `n` in 0..9; the two functions differ only in
the range of codes they accept. -/
theorem DisplaySpecialCharacter_refines (p n c f : Nat) (hp : p < 256) (hn : n < 10)
    (hc : 10 ≤ c ∧ c < 15) (hf : f < 2) :
    DisplaySpecialCharacter p c f = specShow p c f ∧
    DisplayNumber p n f = specShow p n f := by
  have h : ∀ f < 2, (f <<< 5) % 256 = f <<< 5 := by decide
  rw [DisplaySpecialCharacter_eq p c f hp hc, DisplayNumber_eq p n f hp hn, h f hf]
  exact ⟨rfl, rfl⟩

theorem DisplaySpecialCharacter_refines_witness :
    DisplaySpecialCharacter 0xFF 12 1 = specShow 0xFF 12 1 ∧
    DisplayNumber 0xFF 5 1 = specShow 0xFF 5 1 :=
  DisplaySpecialCharacter_refines 0xFF 5 12 1 (by decide) (by decide) (by decide) (by decide)

/-- C5: an invalid symbol code is a silent no-op. For every port image `p` and every point
flag `sp`, `DisplayNumber` with a number `n >= 10` returns `p`, and
`DisplaySpecialCharacter` with a code `c < 10` or `c >= 15` returns `p`. -/
theorem invalid_code_noop (p n c sp : Nat) (hn : 10 ≤ n) (hc : c < 10 ∨ 15 ≤ c) :
    DisplayNumber p n sp = p ∧ DisplaySpecialCharacter p c sp = p := by
  constructor
  · unfold DisplayNumber
    rw [if_neg (by omega)]
  · unfold DisplaySpecialCharacter
    rw [if_neg (by omega)]

theorem invalid_code_noop_witness :
    DisplayNumber 0xA5 10 1 = 0xA5 ∧ DisplaySpecialCharacter 0xA5 15 1 = 0xA5 :=
  invalid_code_noop 0xA5 10 15 1 (by decide) (by decide)

/-! ## Clearing the display -/

/-- C6: for every 8-bit port image `p`, `ClearDisplay` sets the symbol field (bits 1-4) to
the blank pattern `0b1111` (`CLEAR`) and leaves bits 0, 6 and 7 equal to those of `p`. -/
theorem ClearDisplay_blank (p : Nat) (hp : p < 256) :
    (ClearDisplay p >>> 1) &&& 0xF = CLEAR ∧
    ClearDisplay p &&& 0xC1 = p &&& 0xC1 ∧
    ∀ i, (i = 0 ∨ 5 < i) → (ClearDisplay p).testBit i = p.testBit i := by
  have h : ∀ p < 256, (ClearDisplay p >>> 1) &&& 0xF = CLEAR ∧
      ClearDisplay p &&& 0xC1 = p &&& 0xC1 := by
    decide
  obtain ⟨h1, h2⟩ := h p hp
  exact ⟨h1, h2, fun i hi => testBit_eq_of_and_C1 _ p i (ClearDisplay_lt p) hp h2 hi⟩

theorem ClearDisplay_blank_witness :
    (ClearDisplay 0x80 >>> 1) &&& 0xF = CLEAR ∧
    ClearDisplay 0x80 &&& 0xC1 = 0x80 &&& 0xC1 ∧
    ∀ i, (i = 0 ∨ 5 < i) → (ClearDisplay 0x80).testBit i = Nat.testBit 0x80 i :=
  ClearDisplay_blank 0x80 (by decide)

/-- The point bit after `ClearDisplay` is set, for every 8-bit port image. -/
theorem ClearDisplay_pointBit (p : Nat) (hp : p < 256) : (ClearDisplay p).testBit 5 = true := by
  have h : ∀ p < 256, (ClearDisplay p).testBit 5 = true := by decide
  exact h p hp

/-- Bit 5 of the closed form of a symbol write: cleared for point flag 0, set for flag 1. -/
theorem closed_form_pointBit (p code : Nat) (hp : p < 256) (hc : code < 15) :
    ((p &&& 0xC1) ||| (code <<< 1) ||| ((0 <<< 5) % 256)).testBit 5 = false ∧
    ((p &&& 0xC1) ||| (code <<< 1) ||| ((1 <<< 5) % 256)).testBit 5 = true := by
  have h : ∀ p < 256, ∀ code < 15,
      ((p &&& 0xC1) ||| (code <<< 1) ||| ((0 <<< 5) % 256)).testBit 5 = false ∧
      ((p &&& 0xC1) ||| (code <<< 1) ||| ((1 <<< 5) % 256)).testBit 5 = true := by
    decide
  exact h p hp code hc

/-- C7, as stated, fails: on the port image `0x00`, `ClearDisplay` writes `0x3E` and leaves
bit 5 set, while `DisplayNumber` and `DisplaySpecialCharacter` called with point flag 0
leave bit 5 cleared; bit 5 after `ClearDisplay` is not in the state the flag-0 calls leave
it in. -/
theorem ClearDisplay_point_bit_not_flag_zero :
    ClearDisplay 0x00 = 0x3E ∧
    (ClearDisplay 0x00).testBit 5 = true ∧
    (DisplayNumber 0x00 0 0).testBit 5 = false ∧
    (DisplaySpecialCharacter 0x00 10 0).testBit 5 = false ∧
    ¬ ((ClearDisplay 0x00).testBit 5 = (DisplayNumber 0x00 0 0).testBit 5) ∧
    ¬ ((ClearDisplay 0x00).testBit 5 = (DisplaySpecialCharacter 0x00 10 0).testBit 5) := by
  decide

/-- C7, amended: for every 8-bit port image `p`, `ClearDisplay` drives bit 5 of the port
high, whatever bit 5 of `p` was (the port is `(p AND 0xC1) OR 0x3E`). That is the state
`DisplayNumber` (number in 0..9) and `DisplaySpecialCharacter` (code in 10..14) leave bit 5
in when called with point flag 1, and the opposite of the state they leave it in when
called with point flag 0. -/
theorem ClearDisplay_point_level (p n c : Nat) (hp : p < 256) (hn : n < 10)
    (hc : 10 ≤ c ∧ c < 15) :
    ClearDisplay p = (p &&& 0xC1) ||| 0x3E ∧
    (ClearDisplay p).testBit 5 = true ∧
    (ClearDisplay p).testBit 5 = (DisplayNumber p n 1).testBit 5 ∧
    (ClearDisplay p).testBit 5 = (DisplaySpecialCharacter p c 1).testBit 5 ∧
    (ClearDisplay p).testBit 5 ≠ (DisplayNumber p n 0).testBit 5 ∧
    (ClearDisplay p).testBit 5 ≠ (DisplaySpecialCharacter p c 0).testBit 5 := by
  have hv : ∀ p < 256, ClearDisplay p = (p &&& 0xC1) ||| 0x3E := by decide
  have hC := ClearDisplay_pointBit p hp
  obtain ⟨n0, n1⟩ := closed_form_pointBit p n hp (by omega)
  obtain ⟨c0, c1⟩ := closed_form_pointBit p c hp hc.2
  rw [DisplayNumber_eq p n 1 hp hn, DisplayNumber_eq p n 0 hp hn,
    DisplaySpecialCharacter_eq p c 1 hp hc, DisplaySpecialCharacter_eq p c 0 hp hc,
    hC, n0, n1, c0, c1]
  exact ⟨hv p hp, rfl, rfl, rfl, by decide, by decide⟩

theorem ClearDisplay_point_level_witness :
    ClearDisplay 0xC1 = (0xC1 &&& 0xC1) ||| 0x3E ∧
    (ClearDisplay 0xC1).testBit 5 = true ∧
    (ClearDisplay 0xC1).testBit 5 = (DisplayNumber 0xC1 7 1).testBit 5 ∧
    (ClearDisplay 0xC1).testBit 5 = (DisplaySpecialCharacter 0xC1 12 1).testBit 5 ∧
    (ClearDisplay 0xC1).testBit 5 ≠ (DisplayNumber 0xC1 7 0).testBit 5 ∧
    (ClearDisplay 0xC1).testBit 5 ≠ (DisplaySpecialCharacter 0xC1 12 0).testBit 5 :=
  ClearDisplay_point_level 0xC1 7 12 (by decide) (by decide) (by decide)

/-! ## The main loop -/

/-- C8: starting from `bcdCode = 0` with `showPoint` in {0,1} and any port image, the 15
consecutive passes through the loop body dispatch the codes 0,1,...,14 in ascending order,
each once, 0..9 to `DisplayNumber` and 10..14 to `DisplaySpecialCharacter`, each with the
`showPoint` of the cycle start; after the 15th pass `bcdCode = 0` and `showPoint` is
inverted. -/
theorem full_cycle (sp p : Nat) (hsp : sp < 2) :
    dispatched 15 { bcdCode := 0, showPoint := sp, port := p } =
      [Call.DisplayNumber 0 sp, Call.DisplayNumber 1 sp, Call.DisplayNumber 2 sp,
       Call.DisplayNumber 3 sp, Call.DisplayNumber 4 sp, Call.DisplayNumber 5 sp,
       Call.DisplayNumber 6 sp, Call.DisplayNumber 7 sp, Call.DisplayNumber 8 sp,
       Call.DisplayNumber 9 sp, Call.DisplaySpecialCharacter 10 sp,
       Call.DisplaySpecialCharacter 11 sp, Call.DisplaySpecialCharacter 12 sp,
       Call.DisplaySpecialCharacter 13 sp, Call.DisplaySpecialCharacter 14 sp] ∧
    (dispatched 15 { bcdCode := 0, showPoint := sp, port := p }).map Call.code =
      List.range 15 ∧
    (iterations 15 { bcdCode := 0, showPoint := sp, port := p }).bcdCode = 0 ∧
    (iterations 15 { bcdCode := 0, showPoint := sp, port := p }).showPoint = 1 - sp := by
  have h : sp = 0 ∨ sp = 1 := by omega
  rcases h with rfl | rfl
  · refine ⟨?_, ?_, ?_, ?_⟩
    · simp [dispatched, mainBody, dispatch]
    · simp [dispatched, mainBody, dispatch, Call.code]
      rfl
    · simp [iterations, mainBody, dispatch]
    · simp [iterations, mainBody, dispatch]
  · refine ⟨?_, ?_, ?_, ?_⟩
    · simp [dispatched, mainBody, dispatch]
    · simp [dispatched, mainBody, dispatch, Call.code]
      rfl
    · simp [iterations, mainBody, dispatch]
    · simp [iterations, mainBody, dispatch]

theorem full_cycle_witness :
    dispatched 15 { bcdCode := 0, showPoint := 1, port := 0xFF } =
      [Call.DisplayNumber 0 1, Call.DisplayNumber 1 1, Call.DisplayNumber 2 1,
       Call.DisplayNumber 3 1, Call.DisplayNumber 4 1, Call.DisplayNumber 5 1,
       Call.DisplayNumber 6 1, Call.DisplayNumber 7 1, Call.DisplayNumber 8 1,
       Call.DisplayNumber 9 1, Call.DisplaySpecialCharacter 10 1,
       Call.DisplaySpecialCharacter 11 1, Call.DisplaySpecialCharacter 12 1,
       Call.DisplaySpecialCharacter 13 1, Call.DisplaySpecialCharacter 14 1] ∧
    (dispatched 15 { bcdCode := 0, showPoint := 1, port := 0xFF }).map Call.code =
      List.range 15 ∧
    (iterations 15 { bcdCode := 0, showPoint := 1, port := 0xFF }).bcdCode = 0 ∧
    (iterations 15 { bcdCode := 0, showPoint := 1, port := 0xFF }).showPoint = 1 - 1 :=
  full_cycle 1 0xFF (by decide)

/-- Unfolding the last of `n + 1` passes. -/
theorem iterations_succ_last (n : Nat) (s : LoopState) :
    iterations (n + 1) s = mainBody (iterations n s) := by
  induction n generalizing s with
  | zero => rfl
  | succ k ih =>
    show iterations (k + 1) (mainBody s) = mainBody (iterations k (mainBody s))
    exact ih (mainBody s)

/-- C9: end-to-end scenario from `bcdCode = 0`, `showPoint = 1` and an 8-bit port image `p`.
After pass 1 the port has symbol field 0 and the point bit set, the other bits being those
of `p`. Pass 10 dispatches `DisplayNumber 9`, after it `bcdCode = 10`, and pass 11
dispatches `DisplaySpecialCharacter 10`. Pass 15 dispatches `DisplaySpecialCharacter 14`;
after it `bcdCode = 0`, `showPoint = 0`, and the port is `ClearDisplay` applied to the
port that last write produced. -/
theorem end_to_end (p : Nat) (hp : p < 256) :
    symbolField (iterations 1 (initial p)).port = 0 ∧
    pointBit (iterations 1 (initial p)).port = true ∧
    (iterations 1 (initial p)).port = (p &&& 0xC1) ||| 0x20 ∧
    dispatch (iterations 9 (initial p)) = Call.DisplayNumber 9 1 ∧
    (iterations 10 (initial p)).bcdCode = 10 ∧
    dispatch (iterations 10 (initial p)) = Call.DisplaySpecialCharacter 10 1 ∧
    dispatch (iterations 14 (initial p)) = Call.DisplaySpecialCharacter 14 1 ∧
    (iterations 15 (initial p)).bcdCode = 0 ∧
    (iterations 15 (initial p)).showPoint = 0 ∧
    (iterations 15 (initial p)).port =
      ClearDisplay (DisplaySpecialCharacter (iterations 14 (initial p)).port 14 1) := by
  have h1 : (iterations 1 (initial p)).port = DisplayNumber p 0 1 := by
    simp [iterations, mainBody, dispatch, initial, Call.run]
  have hd : ∀ p < 256, symbolField (DisplayNumber p 0 1) = 0 ∧
      pointBit (DisplayNumber p 0 1) = true ∧ DisplayNumber p 0 1 = (p &&& 0xC1) ||| 0x20 := by
    decide
  have h14c : (iterations 14 (initial p)).bcdCode = 14 := by
    simp [iterations, mainBody, dispatch, initial]
  have h14s : (iterations 14 (initial p)).showPoint = 1 := by
    simp [iterations, mainBody, dispatch, initial]
  have h14d : dispatch (iterations 14 (initial p)) = Call.DisplaySpecialCharacter 14 1 := by
    simp [dispatch, h14c, h14s]
  refine ⟨?_, ?_, ?_, ?_, ?_, ?_, h14d, ?_, ?_, ?_⟩
  · rw [h1]; exact (hd p hp).1
  · rw [h1]; exact (hd p hp).2.1
  · rw [h1]; exact (hd p hp).2.2
  · simp [iterations, mainBody, dispatch, initial]
  · simp [iterations, mainBody, dispatch, initial]
  · simp [iterations, mainBody, dispatch, initial]
  · simp [iterations, mainBody, dispatch, initial]
  · simp [iterations, mainBody, dispatch, initial]
  · rw [iterations_succ_last 14]
    simp [mainBody, h14d, h14c, Call.run]

theorem end_to_end_witness :
    symbolField (iterations 1 (initial 0xDF)).port = 0 ∧
    pointBit (iterations 1 (initial 0xDF)).port = true ∧
    (iterations 1 (initial 0xDF)).port = (0xDF &&& 0xC1) ||| 0x20 ∧
    dispatch (iterations 9 (initial 0xDF)) = Call.DisplayNumber 9 1 ∧
    (iterations 10 (initial 0xDF)).bcdCode = 10 ∧
    dispatch (iterations 10 (initial 0xDF)) = Call.DisplaySpecialCharacter 10 1 ∧
    dispatch (iterations 14 (initial 0xDF)) = Call.DisplaySpecialCharacter 14 1 ∧
    (iterations 15 (initial 0xDF)).bcdCode = 0 ∧
    (iterations 15 (initial 0xDF)).showPoint = 0 ∧
    (iterations 15 (initial 0xDF)).port =
      ClearDisplay (DisplaySpecialCharacter (iterations 14 (initial 0xDF)).port 14 1) :=
  end_to_end 0xDF (by decide)

/-! ## The point flag outside {0,1} -/

/-- C10 (the code at the failing input): `DisplayNumber` on the port image `0x00` with
number 0 and `showPoint = 2` writes `0x40`: bit 5, the point bit, is cleared although
`showPoint > 0`, and bit 6 is set. The same happens on the port image `0xFF` for bit 5,
and for `showPoint = 8` the written value does not contain any bit of the flag. -/
theorem DisplayNumber_showPoint_two :
    DisplayNumber 0x00 0 2 = 0x40 ∧
    (DisplayNumber 0x00 0 2).testBit 5 = false ∧
    (DisplayNumber 0x00 0 2).testBit 6 = true ∧
    (DisplayNumber 0xFF 0 2).testBit 5 = false ∧
    DisplayNumber 0x00 0 8 = 0x00 := by
  decide

/-! ## Closed forms and the bits they touch -/

/-- Closed form of `ClearDisplay`. -/
theorem ClearDisplay_eq (p : Nat) (hp : p < 256) : ClearDisplay p = (p &&& 0xC1) ||| 0x3E := by
  have h : ∀ p < 256, ClearDisplay p = (p &&& 0xC1) ||| 0x3E := by decide
  exact h p hp

/-- With a point flag in {0,1}, the closed form of a symbol write keeps bits 0, 6 and 7. -/
theorem closed_form_and_C1 (p code f : Nat) (hp : p < 256) (hc : code < 15) (hf : f < 2) :
    ((p &&& 0xC1) ||| (code <<< 1) ||| ((f <<< 5) % 256)) &&& 0xC1 = p &&& 0xC1 := by
  have h : ∀ p < 256, ∀ code < 15, ∀ f < 2,
      ((p &&& 0xC1) ||| (code <<< 1) ||| ((f <<< 5) % 256)) &&& 0xC1 = p &&& 0xC1 := by
    decide
  exact h p hp code hc f hf

theorem DisplayNumber_and_C1 (p n f : Nat) (hp : p < 256) (hn : n < 10) (hf : f < 2) :
    DisplayNumber p n f &&& 0xC1 = p &&& 0xC1 := by
  rw [DisplayNumber_eq p n f hp hn]
  exact closed_form_and_C1 p n f hp (by omega) hf

theorem DisplaySpecialCharacter_and_C1 (p c f : Nat) (hp : p < 256) (hc : 10 ≤ c ∧ c < 15)
    (hf : f < 2) : DisplaySpecialCharacter p c f &&& 0xC1 = p &&& 0xC1 := by
  rw [DisplaySpecialCharacter_eq p c f hp hc]
  exact closed_form_and_C1 p c f hp hc.2 hf

theorem ClearDisplay_and_C1 (p : Nat) (hp : p < 256) : ClearDisplay p &&& 0xC1 = p &&& 0xC1 := by
  have h : ∀ p < 256, ClearDisplay p &&& 0xC1 = p &&& 0xC1 := by decide
  exact h p hp

/-- The pins `Setup` configures as outputs are pins 1 to 5. -/
theorem isOutput_iff (i : Nat) : isOutput i = true ↔ 1 ≤ i ∧ i ≤ 5 := by
  unfold isOutput
  by_cases h8 : 8 ≤ i
  · rw [testBit_of_lt_256 Setup i (by decide) h8]
    constructor
    · intro h; cases h
    · intro h; omega
  · have hi : i < 8 := by omega
    interval_cases i <;> decide

/-- A bit in which two bytes differ although they agree under the mask `0xC1` is a pin
configured as an output. -/
theorem isOutput_of_changed (r p i : Nat) (hr : r < 256) (hp : p < 256)
    (h : r &&& 0xC1 = p &&& 0xC1) (hd : r.testBit i ≠ p.testBit i) : isOutput i = true := by
  by_contra hno
  have hi : i = 0 ∨ 5 < i := by
    by_contra hcon
    exact hno ((isOutput_iff i).2 (by omega))
  exact hd (testBit_eq_of_and_C1 r p i hr hp h hi)

/-! ## Pin directions -/

/-- C11: `Setup` writes `DDRD = 0b00111110 = (0xF << 1) OR (1 << 5)`: exactly pins 1-5 are
outputs and pin 0 is an input. Every bit of an 8-bit port image `p` that `DisplayNumber`
(number in 0..9), `DisplaySpecialCharacter` (code in 10..14), both with a point flag in
{0,1}, or `ClearDisplay` changes is a pin configured as an output. -/
theorem Setup_outputs (p n c f : Nat) (hp : p < 256) (hn : n < 10) (hc : 10 ≤ c ∧ c < 15)
    (hf : f < 2) :
    Setup = 0b00111110 ∧ Setup = (0xF <<< 1) ||| (1 <<< 5) ∧
    (∀ i, isOutput i = true ↔ 1 ≤ i ∧ i ≤ 5) ∧ isOutput 0 = false ∧
    (∀ i, (DisplayNumber p n f).testBit i ≠ p.testBit i → isOutput i = true) ∧
    (∀ i, (DisplaySpecialCharacter p c f).testBit i ≠ p.testBit i → isOutput i = true) ∧
    (∀ i, (ClearDisplay p).testBit i ≠ p.testBit i → isOutput i = true) := by
  refine ⟨rfl, by decide, isOutput_iff, by decide, ?_, ?_, ?_⟩
  · intro i hd
    exact isOutput_of_changed _ p i (DisplayNumber_lt p n f hp) hp
      (DisplayNumber_and_C1 p n f hp hn hf) hd
  · intro i hd
    exact isOutput_of_changed _ p i (DisplaySpecialCharacter_lt p c f hp) hp
      (DisplaySpecialCharacter_and_C1 p c f hp hc hf) hd
  · intro i hd
    exact isOutput_of_changed _ p i (ClearDisplay_lt p) hp (ClearDisplay_and_C1 p hp) hd

theorem Setup_outputs_witness :
    Setup = 0b00111110 ∧ Setup = (0xF <<< 1) ||| (1 <<< 5) ∧
    (∀ i, isOutput i = true ↔ 1 ≤ i ∧ i ≤ 5) ∧ isOutput 0 = false ∧
    (∀ i, (DisplayNumber 0xC1 9 1).testBit i ≠ Nat.testBit 0xC1 i → isOutput i = true) ∧
    (∀ i, (DisplaySpecialCharacter 0xC1 14 1).testBit i ≠ Nat.testBit 0xC1 i →
      isOutput i = true) ∧
    (∀ i, (ClearDisplay 0xC1).testBit i ≠ Nat.testBit 0xC1 i → isOutput i = true) :=
  Setup_outputs 0xC1 9 14 1 (by decide) (by decide) (by decide) (by decide)

/-! ## The point write for every byte `showPoint` -/

/-- The low byte of `showPoint << 5` only has bits 5, 6 and 7: it is `32 * (showPoint % 8)`. -/
theorem shift_five_mod (sp : Nat) : (sp <<< 5) % 256 = 32 * (sp % 8) := by
  rw [Nat.shiftLeft_eq]
  norm_num
  omega

/-- The symbol field of the closed form of a symbol write is the code, whatever the flag. -/
theorem closed_form_symbolField (p code sp : Nat) (hp : p < 256) (hc : code < 15) :
    symbolField ((p &&& 0xC1) ||| (code <<< 1) ||| ((sp <<< 5) % 256)) = code := by
  have h : ∀ t < 8, ∀ code < 15, ∀ p < 256,
      symbolField ((p &&& 0xC1) ||| (code <<< 1) ||| (32 * t)) = code := by
    decide
  rw [shift_five_mod]
  exact h (sp % 8) (Nat.mod_lt _ (by decide)) code hc p hp

theorem DisplayNumber_symbolField_any (p n sp : Nat) (hp : p < 256) (hn : n < 10) :
    symbolField (DisplayNumber p n sp) = n := by
  rw [DisplayNumber_eq p n sp hp hn]
  exact closed_form_symbolField p n sp hp (by omega)

theorem DisplaySpecialCharacter_symbolField_any (p c sp : Nat) (hp : p < 256)
    (hc : 10 ≤ c ∧ c < 15) : symbolField (DisplaySpecialCharacter p c sp) = c := by
  rw [DisplaySpecialCharacter_eq p c sp hp hc]
  exact closed_form_symbolField p c sp hp hc.2

/-- C12 (the code at the failing input): with `showPoint = 2` on the port image `0x00`,
`DisplayNumber 0` writes `0x40` and `DisplaySpecialCharacter 10` writes `0x54`: bit 6 of
the port is changed, so the result does not agree with the port image under the mask
`0xC1`; with `showPoint = 6` bits 6 and 7 are both changed. The symbol field is the symbol
passed in and bit 0 is kept. -/
theorem point_write_changes_bit_six :
    DisplayNumber 0x00 0 2 &&& 0xC1 = 0x40 ∧
    (DisplayNumber 0x00 0 2).testBit 6 ≠ Nat.testBit 0x00 6 ∧
    DisplaySpecialCharacter 0x00 10 2 = 0x54 ∧
    (DisplaySpecialCharacter 0x00 10 2).testBit 6 ≠ Nat.testBit 0x00 6 ∧
    DisplayNumber 0x00 0 6 &&& 0xC1 = 0xC0 ∧
    symbolField (DisplayNumber 0x00 0 2) = 0 ∧
    symbolField (DisplaySpecialCharacter 0x00 10 2) = 10 := by
  decide

/-! ## Independence of the old symbol and point -/

theorem DisplayNumber_congr (p q n sp : Nat) (hp : p < 256) (hq : q < 256) (hn : n < 10)
    (h : p &&& 0xC1 = q &&& 0xC1) : DisplayNumber p n sp = DisplayNumber q n sp := by
  rw [DisplayNumber_eq p n sp hp hn, DisplayNumber_eq q n sp hq hn, h]

theorem DisplaySpecialCharacter_congr (p q c sp : Nat) (hp : p < 256) (hq : q < 256)
    (hc : 10 ≤ c ∧ c < 15) (h : p &&& 0xC1 = q &&& 0xC1) :
    DisplaySpecialCharacter p c sp = DisplaySpecialCharacter q c sp := by
  rw [DisplaySpecialCharacter_eq p c sp hp hc, DisplaySpecialCharacter_eq q c sp hq hc, h]

theorem ClearDisplay_congr (p q : Nat) (hp : p < 256) (hq : q < 256)
    (h : p &&& 0xC1 = q &&& 0xC1) : ClearDisplay p = ClearDisplay q := by
  rw [ClearDisplay_eq p hp, ClearDisplay_eq q hq, h]

/-- C13: an old displayed value does not influence the new setting. For 8-bit port images
`p` and `q` that agree on bits 0, 6 and 7, every number `n` in 0..9, every code `c` in
10..14 and every point flag `f` in {0,1}, `DisplayNumber`, `DisplaySpecialCharacter` and
`ClearDisplay` give the same port from `p` as from `q`. Each operation is idempotent, and
after any earlier operation (with number `m`, code `d`, flag `g` in {0,1}) the later
operation gives the port it gives on `p` itself: the last write wins. -/
theorem old_value_no_influence (p q n c f m d g : Nat) (hp : p < 256) (hq : q < 256)
    (h : p &&& 0xC1 = q &&& 0xC1) (hn : n < 10) (hc : 10 ≤ c ∧ c < 15) (hf : f < 2)
    (hm : m < 10) (hd : 10 ≤ d ∧ d < 15) (hg : g < 2) :
    (DisplayNumber p n f = DisplayNumber q n f ∧
     DisplaySpecialCharacter p c f = DisplaySpecialCharacter q c f ∧
     ClearDisplay p = ClearDisplay q) ∧
    (DisplayNumber (DisplayNumber p n f) n f = DisplayNumber p n f ∧
     DisplaySpecialCharacter (DisplaySpecialCharacter p c f) c f =
       DisplaySpecialCharacter p c f ∧
     ClearDisplay (ClearDisplay p) = ClearDisplay p) ∧
    (DisplayNumber (DisplayNumber p m g) n f = DisplayNumber p n f ∧
     DisplayNumber (DisplaySpecialCharacter p d g) n f = DisplayNumber p n f ∧
     DisplayNumber (ClearDisplay p) n f = DisplayNumber p n f ∧
     DisplaySpecialCharacter (DisplayNumber p m g) c f = DisplaySpecialCharacter p c f ∧
     DisplaySpecialCharacter (DisplaySpecialCharacter p d g) c f =
       DisplaySpecialCharacter p c f ∧
     DisplaySpecialCharacter (ClearDisplay p) c f = DisplaySpecialCharacter p c f ∧
     ClearDisplay (DisplayNumber p m g) = ClearDisplay p ∧
     ClearDisplay (DisplaySpecialCharacter p d g) = ClearDisplay p) := by
  have lN : ∀ k e, k < 10 → e < 2 → DisplayNumber p k e < 256 :=
    fun k e _ _ => DisplayNumber_lt p k e hp
  have lS : ∀ k e, (10 ≤ k ∧ k < 15) → e < 2 → DisplaySpecialCharacter p k e < 256 :=
    fun k e _ _ => DisplaySpecialCharacter_lt p k e hp
  have aN : ∀ k e, k < 10 → e < 2 → DisplayNumber p k e &&& 0xC1 = p &&& 0xC1 :=
    fun k e hk he => DisplayNumber_and_C1 p k e hp hk he
  have aS : ∀ k e, (10 ≤ k ∧ k < 15) → e < 2 →
      DisplaySpecialCharacter p k e &&& 0xC1 = p &&& 0xC1 :=
    fun k e hk he => DisplaySpecialCharacter_and_C1 p k e hp hk he
  have lC := ClearDisplay_lt p
  have aC := ClearDisplay_and_C1 p hp
  refine ⟨⟨?_, ?_, ?_⟩, ⟨?_, ?_, ?_⟩, ⟨?_, ?_, ?_, ?_, ?_, ?_, ?_, ?_⟩⟩
  · exact DisplayNumber_congr p q n f hp hq hn h
  · exact DisplaySpecialCharacter_congr p q c f hp hq hc h
  · exact ClearDisplay_congr p q hp hq h
  · exact DisplayNumber_congr _ p n f (lN n f hn hf) hp hn (aN n f hn hf)
  · exact DisplaySpecialCharacter_congr _ p c f (lS c f hc hf) hp hc (aS c f hc hf)
  · exact ClearDisplay_congr _ p lC hp aC
  · exact DisplayNumber_congr _ p n f (lN m g hm hg) hp hn (aN m g hm hg)
  · exact DisplayNumber_congr _ p n f (lS d g hd hg) hp hn (aS d g hd hg)
  · exact DisplayNumber_congr _ p n f lC hp hn aC
  · exact DisplaySpecialCharacter_congr _ p c f (lN m g hm hg) hp hc (aN m g hm hg)
  · exact DisplaySpecialCharacter_congr _ p c f (lS d g hd hg) hp hc (aS d g hd hg)
  · exact DisplaySpecialCharacter_congr _ p c f lC hp hc aC
  · exact ClearDisplay_congr _ p (lN m g hm hg) hp (aN m g hm hg)
  · exact ClearDisplay_congr _ p (lS d g hd hg) hp (aS d g hd hg)

theorem old_value_no_influence_witness :
    (DisplayNumber 0x81 7 1 = DisplayNumber 0xBF 7 1 ∧
     DisplaySpecialCharacter 0x81 12 1 = DisplaySpecialCharacter 0xBF 12 1 ∧
     ClearDisplay 0x81 = ClearDisplay 0xBF) ∧
    (DisplayNumber (DisplayNumber 0x81 7 1) 7 1 = DisplayNumber 0x81 7 1 ∧
     DisplaySpecialCharacter (DisplaySpecialCharacter 0x81 12 1) 12 1 =
       DisplaySpecialCharacter 0x81 12 1 ∧
     ClearDisplay (ClearDisplay 0x81) = ClearDisplay 0x81) ∧
    (DisplayNumber (DisplayNumber 0x81 8 0) 7 1 = DisplayNumber 0x81 7 1 ∧
     DisplayNumber (DisplaySpecialCharacter 0x81 14 0) 7 1 = DisplayNumber 0x81 7 1 ∧
     DisplayNumber (ClearDisplay 0x81) 7 1 = DisplayNumber 0x81 7 1 ∧
     DisplaySpecialCharacter (DisplayNumber 0x81 8 0) 12 1 =
       DisplaySpecialCharacter 0x81 12 1 ∧
     DisplaySpecialCharacter (DisplaySpecialCharacter 0x81 14 0) 12 1 =
       DisplaySpecialCharacter 0x81 12 1 ∧
     DisplaySpecialCharacter (ClearDisplay 0x81) 12 1 = DisplaySpecialCharacter 0x81 12 1 ∧
     ClearDisplay (DisplayNumber 0x81 8 0) = ClearDisplay 0x81 ∧
     ClearDisplay (DisplaySpecialCharacter 0x81 14 0) = ClearDisplay 0x81) :=
  old_value_no_influence 0x81 0xBF 7 12 1 8 14 0 (by decide) (by decide) (by decide)
    (by decide) (by decide) (by decide) (by decide) (by decide) (by decide)

/-! ## Control state of the main loop -/

theorem xor_one_of_lt_two (sp : Nat) (hsp : sp < 2) : (sp ^^^ 1) % 256 = 1 - sp := by
  have h : sp = 0 ∨ sp = 1 := by omega
  rcases h with rfl | rfl <;> rfl

/-- The counter after one pass, from a counter in 0..14. -/
theorem mainBody_bcdCode (s : LoopState) (hc : s.bcdCode ≤ 14) :
    (mainBody s).bcdCode = (s.bcdCode + 1) % 15 := by
  unfold mainBody
  dsimp only
  have h256 : (s.bcdCode + 1) % 256 = s.bcdCode + 1 := Nat.mod_eq_of_lt (by omega)
  rw [h256]
  by_cases h : s.bcdCode + 1 = 15
  · rw [if_pos h]
    show 0 = (s.bcdCode + 1) % 15
    omega
  · rw [if_neg h]
    show s.bcdCode + 1 = (s.bcdCode + 1) % 15
    omega

/-- The point flag after one pass, from a counter in 0..14 and a flag in {0,1}: it is
inverted when the counter is 14 and kept otherwise. -/
theorem mainBody_showPoint (s : LoopState) (hc : s.bcdCode ≤ 14) (hsp : s.showPoint < 2) :
    (mainBody s).showPoint = if s.bcdCode = 14 then 1 - s.showPoint else s.showPoint := by
  unfold mainBody
  dsimp only
  have h256 : (s.bcdCode + 1) % 256 = s.bcdCode + 1 := Nat.mod_eq_of_lt (by omega)
  rw [h256]
  by_cases h : s.bcdCode = 14
  · rw [if_pos (by omega), if_pos h]
    exact xor_one_of_lt_two s.showPoint hsp
  · rw [if_neg (by omega), if_neg h]

/-- The port after one pass: the dispatched call, followed by `ClearDisplay` when the
counter was 14. -/
theorem mainBody_port (s : LoopState) (hc : s.bcdCode ≤ 14) :
    (mainBody s).port =
      if s.bcdCode = 14 then ClearDisplay ((dispatch s).run s.port)
      else (dispatch s).run s.port := by
  unfold mainBody
  dsimp only
  have h256 : (s.bcdCode + 1) % 256 = s.bcdCode + 1 := Nat.mod_eq_of_lt (by omega)
  rw [h256]
  by_cases h : s.bcdCode = 14
  · rw [if_pos (by omega), if_pos h]
  · rw [if_neg (by omega), if_neg h]

/-- Counter and point flag after `k` passes, from a counter in 0..14 and a flag in {0,1}. -/
theorem iterations_control (k : Nat) (s : LoopState) (hc : s.bcdCode ≤ 14)
    (hsp : s.showPoint < 2) :
    (iterations k s).bcdCode = (s.bcdCode + k) % 15 ∧
    (iterations k s).showPoint = (s.showPoint + (s.bcdCode + k) / 15) % 2 := by
  induction k generalizing s with
  | zero =>
    show s.bcdCode = (s.bcdCode + 0) % 15 ∧ s.showPoint = (s.showPoint + (s.bcdCode + 0) / 15) % 2
    omega
  | succ k ih =>
    have hb := mainBody_bcdCode s hc
    have hs := mainBody_showPoint s hc hsp
    have hc1 : (mainBody s).bcdCode ≤ 14 := by omega
    have hsp1 : (mainBody s).showPoint < 2 := by
      rw [hs]; split <;> omega
    obtain ⟨i1, i2⟩ := ih (mainBody s) hc1 hsp1
    show (iterations k (mainBody s)).bcdCode = _ ∧ (iterations k (mainBody s)).showPoint = _
    rw [i1, i2, hb, hs]
    by_cases h : s.bcdCode = 14
    · rw [if_pos h]
      omega
    · rw [if_neg h]
      omega

/-- The call dispatched from a counter in 0..14 passes the guard of its function. -/
theorem dispatch_accepted (s : LoopState) (hc : s.bcdCode ≤ 14) : (dispatch s).accepted := by
  unfold dispatch
  by_cases h : s.bcdCode < 10
  · rw [if_pos h]
    exact h
  · rw [if_neg h]
    exact ⟨by omega, by omega⟩

/-- The dispatched call, run on an 8-bit port image from a counter in 0..14, writes the
counter into the symbol field. -/
theorem run_dispatch (s : LoopState) (hc : s.bcdCode ≤ 14) (hp : s.port < 256) :
    (dispatch s).run s.port < 256 ∧ symbolField ((dispatch s).run s.port) = s.bcdCode := by
  unfold dispatch
  by_cases h : s.bcdCode < 10
  · rw [if_pos h]
    exact ⟨DisplayNumber_lt _ _ _ hp, DisplayNumber_symbolField_any _ _ _ hp h⟩
  · rw [if_neg h]
    exact ⟨DisplaySpecialCharacter_lt _ _ _ hp,
      DisplaySpecialCharacter_symbolField_any _ _ _ hp ⟨by omega, by omega⟩⟩

theorem ClearDisplay_symbolField (p : Nat) (hp : p < 256) : symbolField (ClearDisplay p) = 15 := by
  have h : ∀ p < 256, symbolField (ClearDisplay p) = 15 := by decide
  exact h p hp

/-- The port held after one pass: 8 bits, with the counter in its symbol field, or the
blank pattern when the counter was 14. -/
theorem mainBody_symbolField (s : LoopState) (hc : s.bcdCode ≤ 14) (hp : s.port < 256) :
    (mainBody s).port < 256 ∧
    symbolField (mainBody s).port = if s.bcdCode = 14 then 15 else s.bcdCode := by
  obtain ⟨hl, hf⟩ := run_dispatch s hc hp
  rw [mainBody_port s hc]
  by_cases h : s.bcdCode = 14
  · rw [if_pos h, if_pos h]
    exact ⟨ClearDisplay_lt _, ClearDisplay_symbolField _ hl⟩
  · rw [if_neg h, if_neg h]
    exact ⟨hl, hf⟩

theorem iterations_port_lt (k : Nat) (s : LoopState) (hc : s.bcdCode ≤ 14)
    (hp : s.port < 256) : (iterations k s).port < 256 := by
  induction k generalizing s with
  | zero => exact hp
  | succ k ih =>
    have hb := mainBody_bcdCode s hc
    exact ih (mainBody s) (by omega) (mainBody_symbolField s hc hp).1

/-- The counter after `k` passes, from a counter in 0..14. -/
theorem iterations_bcdCode (k : Nat) (s : LoopState) (hc : s.bcdCode ≤ 14) :
    (iterations k s).bcdCode = (s.bcdCode + k) % 15 := by
  induction k generalizing s with
  | zero =>
    show s.bcdCode = (s.bcdCode + 0) % 15
    omega
  | succ k ih =>
    have hb := mainBody_bcdCode s hc
    show (iterations k (mainBody s)).bcdCode = _
    rw [ih (mainBody s) (by omega), hb]
    omega

/-- The symbol field held across the delay of pass `j + 1`. -/
theorem held_symbolField (j : Nat) (s : LoopState) (hc : s.bcdCode ≤ 14) (hp : s.port < 256) :
    symbolField (iterations (j + 1) s).port =
      if (s.bcdCode + j) % 15 = 14 then 15 else (s.bcdCode + j) % 15 := by
  have hb := iterations_bcdCode j s hc
  have hl := iterations_port_lt j s hc hp
  rw [iterations_succ_last, (mainBody_symbolField _ (by omega) hl).2, hb]

/-! ## Invariant, held port images and period of the main loop -/

/-- C14: in every state reached from the initial state (`bcdCode = 0`, `showPoint = 1`,
any port image) after `n` passes, `bcdCode` is in 0..14 and `showPoint` is in {0,1}; the
incremented counter inside the next pass is at most 15; the call dispatched by the next
pass goes to `DisplayNumber` with `bcdCode < 10` or to `DisplaySpecialCharacter` with
`10 <= bcdCode <= 14`, so it passes the guard of its function and the no-op branch is not
taken. -/
theorem reachable_invariant (n p : Nat) :
    (iterations n (initial p)).bcdCode ≤ 14 ∧
    (iterations n (initial p)).showPoint < 2 ∧
    ((iterations n (initial p)).bcdCode + 1) % 256 ≤ 15 ∧
    (dispatch (iterations n (initial p))).accepted ∧
    ((iterations n (initial p)).bcdCode < 10 →
      dispatch (iterations n (initial p)) =
        Call.DisplayNumber (iterations n (initial p)).bcdCode
          (iterations n (initial p)).showPoint) ∧
    (10 ≤ (iterations n (initial p)).bcdCode →
      dispatch (iterations n (initial p)) =
        Call.DisplaySpecialCharacter (iterations n (initial p)).bcdCode
          (iterations n (initial p)).showPoint ∧
      (iterations n (initial p)).bcdCode ≤ 14) := by
  have h0c : (initial p).bcdCode ≤ 14 := Nat.zero_le 14
  have h0s : (initial p).showPoint < 2 := Nat.lt_succ_self 1
  obtain ⟨hc, hs⟩ := iterations_control n (initial p) h0c h0s
  have hc14 : (iterations n (initial p)).bcdCode ≤ 14 := by omega
  refine ⟨hc14, by omega, by omega, dispatch_accepted _ hc14, ?_, ?_⟩
  · intro h
    unfold dispatch
    rw [if_pos h]
  · intro h
    refine ⟨?_, hc14⟩
    unfold dispatch
    rw [if_neg (by omega)]

/-- C15: in a cycle started at `bcdCode = 0` with any point flag and an 8-bit port
image, the port held across the delay has symbol field `k - 1` after pass `k` for `k` in
1..14 and the blank pattern `0b1111` after pass 15, where `ClearDisplay` has overwritten
symbol 14; after no pass, however many follow, is the held symbol field 14. -/
theorem held_port_never_fourteen (p sp : Nat) (hp : p < 256) :
    (∀ k, 1 ≤ k → k ≤ 14 →
      symbolField (iterations k { bcdCode := 0, showPoint := sp, port := p }).port = k - 1) ∧
    symbolField (iterations 15 { bcdCode := 0, showPoint := sp, port := p }).port = 0b1111 ∧
    (∀ n, 1 ≤ n →
      symbolField (iterations n { bcdCode := 0, showPoint := sp, port := p }).port ≠ 14) ∧
    (iterations 14 { bcdCode := 0, showPoint := sp, port := p }).bcdCode = 14 ∧
    (iterations 15 { bcdCode := 0, showPoint := sp, port := p }).port =
      ClearDisplay (DisplaySpecialCharacter
        (iterations 14 { bcdCode := 0, showPoint := sp, port := p }).port 14
        (iterations 14 { bcdCode := 0, showPoint := sp, port := p }).showPoint) := by
  have key : ∀ j, symbolField
      (iterations (j + 1) { bcdCode := 0, showPoint := sp, port := p }).port =
      if (0 + j) % 15 = 14 then 15 else (0 + j) % 15 :=
    fun j => held_symbolField j { bcdCode := 0, showPoint := sp, port := p } (Nat.zero_le 14) hp
  have h14 := iterations_bcdCode 14 { bcdCode := 0, showPoint := sp, port := p }
    (Nat.zero_le 14)
  have h14c : (iterations 14 { bcdCode := 0, showPoint := sp, port := p }).bcdCode = 14 := h14
  refine ⟨?_, ?_, ?_, h14c, ?_⟩
  · intro k h1 h2
    obtain ⟨j, rfl⟩ : ∃ j, k = j + 1 := ⟨k - 1, by omega⟩
    rw [key j]
    split <;> omega
  · exact key 14
  · intro n h1
    obtain ⟨j, rfl⟩ : ∃ j, n = j + 1 := ⟨n - 1, by omega⟩
    rw [key j]
    split <;> omega
  · rw [iterations_succ_last 14, mainBody_port _ (by omega), if_pos h14c]
    unfold dispatch
    rw [if_neg (by omega), h14c]
    rfl

theorem held_port_never_fourteen_witness :
    (∀ k, 1 ≤ k → k ≤ 14 →
      symbolField (iterations k { bcdCode := 0, showPoint := 1, port := 0xFF }).port = k - 1) ∧
    symbolField (iterations 15 { bcdCode := 0, showPoint := 1, port := 0xFF }).port = 0b1111 ∧
    (∀ n, 1 ≤ n →
      symbolField (iterations n { bcdCode := 0, showPoint := 1, port := 0xFF }).port ≠ 14) ∧
    (iterations 14 { bcdCode := 0, showPoint := 1, port := 0xFF }).bcdCode = 14 ∧
    (iterations 15 { bcdCode := 0, showPoint := 1, port := 0xFF }).port =
      ClearDisplay (DisplaySpecialCharacter
        (iterations 14 { bcdCode := 0, showPoint := 1, port := 0xFF }).port 14
        (iterations 14 { bcdCode := 0, showPoint := 1, port := 0xFF }).showPoint) :=
  held_port_never_fourteen 0xFF 1 (by decide)

/-- The point flag changes in pass `k + 1` exactly when the counter before it is 14. -/
theorem toggle_iff (k : Nat) (s : LoopState) (hc : s.bcdCode ≤ 14) (hsp : s.showPoint < 2) :
    (iterations (k + 1) s).showPoint ≠ (iterations k s).showPoint ↔
      (iterations k s).bcdCode = 14 := by
  obtain ⟨hb, hs⟩ := iterations_control k s hc hsp
  have hc1 : (iterations k s).bcdCode ≤ 14 := by omega
  have hs1 : (iterations k s).showPoint < 2 := by omega
  rw [iterations_succ_last, mainBody_showPoint _ hc1 hs1]
  by_cases h : (iterations k s).bcdCode = 14
  · rw [if_pos h]
    constructor
    · intro _; exact h
    · intro _; omega
  · rw [if_neg h]
    constructor
    · intro hne; exact absurd rfl hne
    · intro h14; exact absurd h14 h

/-- C16: the control state of the loop has period 30. From every state with `bcdCode` in
0..14 and `showPoint` in {0,1}, 30 passes return `bcdCode` and `showPoint` to their
values and 15 passes return the same `bcdCode` with `showPoint` inverted. The point flag
changes in pass `k + 1` exactly when `bcdCode` is 14 before it, that is when
`(bcdCode + k) % 15 = 14`: in every 15 consecutive passes exactly one pass changes it. -/
theorem control_period (s : LoopState) (hc : s.bcdCode ≤ 14) (hsp : s.showPoint < 2) :
    ((iterations 30 s).bcdCode = s.bcdCode ∧ (iterations 30 s).showPoint = s.showPoint) ∧
    ((iterations 15 s).bcdCode = s.bcdCode ∧
      (iterations 15 s).showPoint = 1 - s.showPoint ∧
      (iterations 15 s).showPoint ≠ s.showPoint) ∧
    (∀ k, ((iterations (k + 1) s).showPoint ≠ (iterations k s).showPoint ↔
      (s.bcdCode + k) % 15 = 14)) ∧
    (∀ k, ∃! j, (k ≤ j ∧ j < k + 15) ∧
      (iterations (j + 1) s).showPoint ≠ (iterations j s).showPoint) := by
  have ht : ∀ k, ((iterations (k + 1) s).showPoint ≠ (iterations k s).showPoint ↔
      (s.bcdCode + k) % 15 = 14) := by
    intro k
    rw [toggle_iff k s hc hsp, iterations_bcdCode k s hc]
  obtain ⟨b30, s30⟩ := iterations_control 30 s hc hsp
  obtain ⟨b15, s15⟩ := iterations_control 15 s hc hsp
  refine ⟨⟨by omega, by omega⟩, ⟨by omega, by omega, by omega⟩, ht, ?_⟩
  intro k
  refine ⟨k + (14 - (s.bcdCode + k) % 15), ⟨⟨by omega, by omega⟩, (ht _).2 (by omega)⟩, ?_⟩
  rintro j ⟨⟨h1, h2⟩, h3⟩
  have h4 := (ht j).1 h3
  omega

theorem control_period_witness :
    ((iterations 30 (initial 0xFF)).bcdCode = (initial 0xFF).bcdCode ∧
      (iterations 30 (initial 0xFF)).showPoint = (initial 0xFF).showPoint) ∧
    ((iterations 15 (initial 0xFF)).bcdCode = (initial 0xFF).bcdCode ∧
      (iterations 15 (initial 0xFF)).showPoint = 1 - (initial 0xFF).showPoint ∧
      (iterations 15 (initial 0xFF)).showPoint ≠ (initial 0xFF).showPoint) ∧
    (∀ k, ((iterations (k + 1) (initial 0xFF)).showPoint ≠
        (iterations k (initial 0xFF)).showPoint ↔
      ((initial 0xFF).bcdCode + k) % 15 = 14)) ∧
    (∀ k, ∃! j, (k ≤ j ∧ j < k + 15) ∧
      (iterations (j + 1) (initial 0xFF)).showPoint ≠
        (iterations j (initial 0xFF)).showPoint) :=
  control_period (initial 0xFF) (by decide) (by decide)

end SevenSegment
